import Mathlib

/-!
Verification development for the RockFlow training script (`train.py`).

The script trains a Glow normalizing-flow model.  We give a shallow
embedding of the pieces of `train.py` that the specification talks about:
the command-line configuration and its defaults, the per-batch train and
evaluation steps (which external loss function they call and with which
arguments, and which imperative actions they perform in which order), the
actnorm initialization handler and its assertion, the learning-rate warmup
lambda, the ignite event registrations made by `main`, the checkpoint
handler, the resume bookkeeping (checkpoint-filename parsing and engine
state), the sampling handler's outputs, and the hyperparameter JSON
bookkeeping in `__main__`.

Tensors, the Glow model, and the loss functions (`compute_loss`,
`compute_loss_y` from `utils.py`) are external to the file: they are
modelled as opaque parameters, and the train/eval steps are embedded as
the *calls* they make (function selected plus arguments passed), which is
exactly what the claims about them assert.  Floating-point scalars of the
script are modelled as rationals.
-/

namespace RockFlow

/-- The command-line configuration of `train.py` (the fields the claims
need), mirroring the `argparse` options of lines 32-72. -/
structure Config where
  y_condition : Bool
  y_weight : ℚ
  max_grad_clip : ℚ
  max_grad_norm : ℚ
  batch_size : Nat
  eval_batch_size : Nat
  n_init_batches : Nat
  warmup : ℚ
  epochs : Nat
  name : String
  fresh : Bool
  saved_model : String
  output_dir : Option String
  deriving DecidableEq, Repr

/-- The parser defaults of `train.py` lines 32-72 for the fields above
(`store_true` flags default to `False`; `--output_dir` defaults to `None`). -/
def defaultArgs : Config :=
  { y_condition := false
    y_weight := 1/100
    max_grad_clip := 0
    max_grad_norm := 0
    batch_size := 4
    eval_batch_size := 8
    n_init_batches := 8
    warmup := 5
    epochs := 20
    name := "output/"
    fresh := false
    saved_model := ""
    output_dir := Option.none }

/-- `multi_class = False` (train.py line 84). -/
def multi_class : Bool := false

/-- Reification of the loss-function call a step makes: `compute_loss_y`
with its positional arguments and optional `reduction` keyword, or
`compute_loss` likewise.  `reduction = Option.none` means the keyword was
not passed (the callee's default applies). -/
inductive LossCall (T : Type) where
  | compute_loss_y (nll y_logits : T) (y_weight : ℚ) (y : T) (mc : Bool)
      (reduction : Option String)
  | compute_loss (nll : T) (reduction : Option String)
  deriving DecidableEq, Repr

/-- Which call a step performed: the target the model was applied to and
the loss call made on the model's outputs. -/
structure StepCalls (T : Type) where
  modelTarget : Option T
  losses : LossCall T
  deriving DecidableEq, Repr

/-- The calls made by the training `step` (train.py lines 130-136): on
`y_condition` the model is applied to `(x, y)` and
`compute_loss_y(nll, y_logits, y_weight, y, multi_class)` is called;
otherwise the model is applied to `(x, None)` and `compute_loss(nll)` is
called.  `model x t = (z, nll, y_logits)`. -/
def step_calls {T : Type} (args : Config) (model : T → Option T → T × T × T)
    (x y : T) : StepCalls T :=
  if args.y_condition then
    let out := model x (Option.some y)
    { modelTarget := Option.some y
      losses := LossCall.compute_loss_y out.2.1 out.2.2 args.y_weight y
        multi_class Option.none }
  else
    let out := model x Option.none
    { modelTarget := Option.none
      losses := LossCall.compute_loss out.2.1 Option.none }

/-- The calls made by `eval_step` (train.py lines 156-163): the same
dispatch as `step`, but passing `reduction="none"` to the loss function in
both branches. -/
def eval_step_calls {T : Type} (args : Config) (model : T → Option T → T × T × T)
    (x y : T) : StepCalls T :=
  if args.y_condition then
    let out := model x (Option.some y)
    { modelTarget := Option.some y
      losses := LossCall.compute_loss_y out.2.1 out.2.2 args.y_weight y
        multi_class (Option.some "none") }
  else
    let out := model x Option.none
    { modelTarget := Option.none
      losses := LossCall.compute_loss out.2.1 (Option.some "none") }

/-- The imperative actions a step performs, in order.  `forward b` records
a forward pass with `b = true` meaning it ran under `torch.no_grad`. -/
inductive Action where
  | set_train_mode
  | set_eval_mode
  | zero_grad
  | forward (no_grad : Bool)
  | backward
  | clip_grad_value (clip : ℚ)
  | clip_grad_norm (norm : ℚ)
  | optimizer_step
  deriving DecidableEq, Repr

/-- Whether an action is one of the two gradient-clipping calls. -/
def Action.isClip : Action → Bool
  | Action.clip_grad_value _ => true
  | Action.clip_grad_norm _ => true
  | _ => false

/-- The ordered actions of the training `step` (train.py lines 123-145):
`model.train()`, `optimizer.zero_grad()`, forward, backward, then value
clipping iff `max_grad_clip > 0`, then norm clipping iff
`max_grad_norm > 0`, then `optimizer.step()`. -/
def stepActions (args : Config) : List Action :=
  [Action.set_train_mode, Action.zero_grad, Action.forward false, Action.backward]
    ++ (if 0 < args.max_grad_clip then [Action.clip_grad_value args.max_grad_clip] else [])
    ++ (if 0 < args.max_grad_norm then [Action.clip_grad_norm args.max_grad_norm] else [])
    ++ [Action.optimizer_step]

/-- The ordered actions of `eval_step` (train.py lines 149-165):
`model.eval()` and a forward pass under `torch.no_grad`; no gradient or
optimizer action at all. -/
def evalStepActions : List Action :=
  [Action.set_eval_mode, Action.forward true]

/-- Claim C1: for every training batch, `step` dispatches on `y_condition`:
if set, the model is applied to `(x, y)` and the losses are
`compute_loss_y(nll, y_logits, y_weight, y, multi_class)`; otherwise the
model is applied with target `None` and the losses are `compute_loss(nll)`.
`eval_step` performs the same dispatch with `reduction="none"`. -/
theorem C1_loss_dispatch {T : Type} (args : Config)
    (model : T → Option T → T × T × T) (x y : T) :
    (args.y_condition = true →
      step_calls args model x y =
        { modelTarget := Option.some y
          losses := LossCall.compute_loss_y (model x (Option.some y)).2.1
            (model x (Option.some y)).2.2 args.y_weight y multi_class Option.none } ∧
      eval_step_calls args model x y =
        { modelTarget := Option.some y
          losses := LossCall.compute_loss_y (model x (Option.some y)).2.1
            (model x (Option.some y)).2.2 args.y_weight y multi_class
            (Option.some "none") }) ∧
    (args.y_condition = false →
      step_calls args model x y =
        { modelTarget := Option.none
          losses := LossCall.compute_loss (model x Option.none).2.1 Option.none } ∧
      eval_step_calls args model x y =
        { modelTarget := Option.none
          losses := LossCall.compute_loss (model x Option.none).2.1
            (Option.some "none") }) := by
  constructor
  · intro h
    constructor <;> simp [step_calls, eval_step_calls, h]
  · intro h
    constructor <;> simp [step_calls, eval_step_calls, h]

/-- Concrete instance of C1: the dispatch at `y_condition := true` on a
boolean toy tensor type. -/
theorem C1_loss_dispatch_witness :
    step_calls { defaultArgs with y_condition := true }
        (fun x _ => (x, x, x)) true false =
      { modelTarget := Option.some false
        losses := LossCall.compute_loss_y true true (1/100) false false
          Option.none } :=
  ((C1_loss_dispatch { defaultArgs with y_condition := true }
    (fun x _ => (x, x, x)) true false).1 rfl).1

/-- The value-clipping action occurs in the step iff `max_grad_clip > 0`,
and then only with threshold `max_grad_clip`. -/
theorem mem_clip_value_stepActions (args : Config) (c : ℚ) :
    Action.clip_grad_value c ∈ stepActions args ↔
      0 < args.max_grad_clip ∧ c = args.max_grad_clip := by
  by_cases h1 : 0 < args.max_grad_clip <;> by_cases h2 : 0 < args.max_grad_norm <;>
    simp [stepActions, h1, h2]

/-- The norm-clipping action occurs in the step iff `max_grad_norm > 0`,
and then only with threshold `max_grad_norm`. -/
theorem mem_clip_norm_stepActions (args : Config) (c : ℚ) :
    Action.clip_grad_norm c ∈ stepActions args ↔
      0 < args.max_grad_norm ∧ c = args.max_grad_norm := by
  by_cases h1 : 0 < args.max_grad_clip <;> by_cases h2 : 0 < args.max_grad_norm <;>
    simp [stepActions, h1, h2]

/-- Claim C4: in every training step, after backward and before the
optimizer step, value clipping at `max_grad_clip` is applied iff
`max_grad_clip > 0` and norm clipping at `max_grad_norm` is applied iff
`max_grad_norm > 0`; both default to `0`, and at the defaults no clipping
is performed. -/
theorem C4_grad_clipping (args : Config) :
    ((∃ c, Action.clip_grad_value c ∈ stepActions args) ↔ 0 < args.max_grad_clip) ∧
    (∀ c, Action.clip_grad_value c ∈ stepActions args → c = args.max_grad_clip) ∧
    ((∃ c, Action.clip_grad_norm c ∈ stepActions args) ↔ 0 < args.max_grad_norm) ∧
    (∀ c, Action.clip_grad_norm c ∈ stepActions args → c = args.max_grad_norm) ∧
    (defaultArgs.max_grad_clip = 0 ∧ defaultArgs.max_grad_norm = 0) ∧
    stepActions defaultArgs =
      [Action.set_train_mode, Action.zero_grad, Action.forward false,
       Action.backward, Action.optimizer_step] ∧
    (∃ l, stepActions args =
        [Action.set_train_mode, Action.zero_grad, Action.forward false,
         Action.backward] ++ l ++ [Action.optimizer_step] ∧
      ∀ a ∈ l, a.isClip = true) := by
  refine ⟨?_, ?_, ?_, ?_, ⟨rfl, rfl⟩, by simp [stepActions, defaultArgs], ?_⟩
  · constructor
    · rintro ⟨c, hc⟩
      exact ((mem_clip_value_stepActions args c).1 hc).1
    · intro h
      exact ⟨args.max_grad_clip, (mem_clip_value_stepActions args _).2 ⟨h, rfl⟩⟩
  · intro c hc
    exact ((mem_clip_value_stepActions args c).1 hc).2
  · constructor
    · rintro ⟨c, hc⟩
      exact ((mem_clip_norm_stepActions args c).1 hc).1
    · intro h
      exact ⟨args.max_grad_norm, (mem_clip_norm_stepActions args _).2 ⟨h, rfl⟩⟩
  · intro c hc
    exact ((mem_clip_norm_stepActions args c).1 hc).2
  · refine ⟨(if 0 < args.max_grad_clip then [Action.clip_grad_value args.max_grad_clip] else [])
      ++ (if 0 < args.max_grad_norm then [Action.clip_grad_norm args.max_grad_norm] else []),
      by simp [stepActions], ?_⟩
    intro a ha
    rcases List.mem_append.mp ha with h | h
    · have hv : a = Action.clip_grad_value args.max_grad_clip := by
        split at h <;> simp_all
      rw [hv]
      rfl
    · have hn : a = Action.clip_grad_norm args.max_grad_norm := by
        split at h <;> simp_all
      rw [hn]
      rfl

/-- Concrete instance of C4: at `max_grad_clip = 1/2` the value-clipping
call is present. -/
theorem C4_grad_clipping_witness :
    (∃ c, Action.clip_grad_value c ∈
      stepActions { defaultArgs with max_grad_clip := 1/2 }) :=
  (C4_grad_clipping { defaultArgs with max_grad_clip := 1/2 }).1.2 (by norm_num)

/-- Training mode of the model. -/
inductive Mode where
  | train
  | eval
  deriving DecidableEq, Repr

/-- The mutable state `eval_step` could touch: the model parameters, the
optimizer state, and the model's train/eval mode. -/
structure TrainState (P O : Type) where
  params : P
  optState : O
  mode : Mode

/-- State effect of `eval_step` (train.py lines 149-165): it calls
`model.eval()` and then only reads state (forward under `torch.no_grad`,
loss computation); it never writes parameters or optimizer state. -/
def eval_step_state {P O : Type} (st : TrainState P O) : TrainState P O :=
  { st with mode := Mode.eval }

/-- The `reduction` keyword recorded in a loss call. -/
def LossCall.reductionArg {T : Type} : LossCall T → Option String
  | LossCall.compute_loss_y _ _ _ _ _ r => r
  | LossCall.compute_loss _ r => r

/-- Claim C8: `eval_step` leaves model parameters and the optimizer state
unchanged, switches the model to eval mode, runs its forward pass under
`torch.no_grad`, uses `reduction="none"` for the losses, and performs no
backward or optimizer step. -/
theorem C8_eval_step_frame {P O T : Type} (st : TrainState P O) (args : Config)
    (model : T → Option T → T × T × T) (x y : T) :
    (eval_step_state st).params = st.params ∧
    (eval_step_state st).optState = st.optState ∧
    (eval_step_state st).mode = Mode.eval ∧
    evalStepActions = [Action.set_eval_mode, Action.forward true] ∧
    Action.backward ∉ evalStepActions ∧
    Action.optimizer_step ∉ evalStepActions ∧
    Action.zero_grad ∉ evalStepActions ∧
    (eval_step_calls args model x y).losses.reductionArg = Option.some "none" := by
  refine ⟨rfl, rfl, rfl, rfl, by decide, by decide, by decide, ?_⟩
  by_cases h : args.y_condition <;>
    simp [eval_step_calls, h, LossCall.reductionArg]

/-- Sizes of the batches yielded by the training dataloader
(train.py lines 89-93): built with `drop_last=True`, so it yields
`dataset_size / batch_size` batches, every one of exactly `batch_size`
samples (shuffling does not affect sizes). -/
def train_loader_batch_sizes (dataset_size batch_size : Nat) : List Nat :=
  List.replicate (dataset_size / batch_size) batch_size

/-- Number of samples in the concatenation built by the `init` handler
(train.py lines 214-222): `islice(train_loader, None, n_init_batches)`
takes the first `n_init_batches` batches (or all of them when fewer), and
`torch.cat` concatenates them along dimension 0. -/
def init_concat_size (args : Config) (batch_sizes : List Nat) : Nat :=
  (batch_sizes.take args.n_init_batches).sum

/-- The assertion of train.py line 224:
`init_batches.shape[0] == args.n_init_batches * args.batch_size`. -/
def init_assertion (args : Config) (batch_sizes : List Nat) : Prop :=
  init_concat_size args batch_sizes = args.n_init_batches * args.batch_size

instance (args : Config) (batch_sizes : List Nat) :
    Decidable (init_assertion args batch_sizes) := by
  unfold init_assertion
  infer_instance

/-- Claim C2: when the training loader yields at least `n_init_batches`
batches, the init assertion holds (drop_last makes every batch exactly
`batch_size` samples); with fewer available batches it fails. -/
theorem C2_init_assertion (args : Config) (dataset_size : Nat)
    (hbs : 0 < args.batch_size) :
    (args.n_init_batches ≤ (train_loader_batch_sizes dataset_size args.batch_size).length →
      init_assertion args (train_loader_batch_sizes dataset_size args.batch_size)) ∧
    ((train_loader_batch_sizes dataset_size args.batch_size).length < args.n_init_batches →
      ¬ init_assertion args (train_loader_batch_sizes dataset_size args.batch_size)) := by
  have hsum : init_concat_size args (train_loader_batch_sizes dataset_size args.batch_size)
      = min args.n_init_batches (dataset_size / args.batch_size) * args.batch_size := by
    simp [init_concat_size, train_loader_batch_sizes, List.take_replicate,
      List.sum_replicate, smul_eq_mul, Nat.mul_comm]
  have hlen : (train_loader_batch_sizes dataset_size args.batch_size).length
      = dataset_size / args.batch_size := by
    simp [train_loader_batch_sizes]
  constructor
  · intro hle
    rw [hlen] at hle
    unfold init_assertion
    rw [hsum, Nat.min_eq_left hle]
  · intro hlt
    rw [hlen] at hlt
    unfold init_assertion
    rw [hsum, Nat.min_eq_right (Nat.le_of_lt hlt)]
    intro heq
    exact absurd (Nat.eq_of_mul_eq_mul_right hbs heq) (Nat.ne_of_lt hlt)

/-- Concrete instance of C2: with the default batch size 4 and
`n_init_batches = 8`, a dataset of 32 samples satisfies the assertion and
a dataset of 20 samples violates it. -/
theorem C2_init_assertion_witness :
    init_assertion defaultArgs (train_loader_batch_sizes 32 defaultArgs.batch_size) ∧
    ¬ init_assertion defaultArgs (train_loader_batch_sizes 20 defaultArgs.batch_size) :=
  ⟨(C2_init_assertion defaultArgs 32 (by decide)).1 (by decide),
   (C2_init_assertion defaultArgs 20 (by decide)).2 (by decide)⟩

/-- The learning-rate warmup multiplier (train.py line 119):
`lr_lambda = lambda epoch: min(1.0, (epoch + 1) / args.warmup)`. -/
def lr_lambda (warmup : ℚ) (epoch : Nat) : ℚ :=
  min 1 ((epoch + 1) / warmup)

/-- The ignite event kinds used by the script. -/
inductive EventKind where
  | STARTED
  | EPOCH_STARTED
  | ITERATION_STARTED
  | ITERATION_COMPLETED
  | EPOCH_COMPLETED
  | COMPLETED
  deriving DecidableEq, Repr

/-- The handlers `main` registers on the trainer. -/
inductive HandlerId where
  | checkpoint_handler
  | resume_training
  | init
  | sample
  | evaluate
  | timer
  | print_times
  deriving DecidableEq, Repr

/-- One event registration: the event kind, the `every` filter (1 when no
filter was given), and the handler. -/
structure Registration where
  event : EventKind
  every : Nat
  handler : HandlerId
  deriving DecidableEq, Repr

/-- The trainer registrations of `main`, in source order (train.py lines
175, 204, 210, 235, 276, 285-286, 288): the checkpoint handler on
EPOCH_COMPLETED; `resume_training` on STARTED only when a saved model path
was given; `init` on STARTED; `sample` on ITERATION_COMPLETED with
`every=50`; `evaluate` on EPOCH_COMPLETED; the timer on EPOCH_STARTED,
ITERATION_STARTED and (for pause and step) twice on ITERATION_COMPLETED;
`print_times` on EPOCH_COMPLETED.  (Metric and progress-bar attachments
are internal to ignite and register no checkpoint, scheduler or sampling
behaviour; they are not modelled.) -/
def registrations (saved_model_given : Bool) : List Registration :=
  [Registration.mk EventKind.EPOCH_COMPLETED 1 HandlerId.checkpoint_handler]
    ++ (if saved_model_given then
          [Registration.mk EventKind.STARTED 1 HandlerId.resume_training]
        else [])
    ++ [Registration.mk EventKind.STARTED 1 HandlerId.init,
        Registration.mk EventKind.ITERATION_COMPLETED 50 HandlerId.sample,
        Registration.mk EventKind.EPOCH_COMPLETED 1 HandlerId.evaluate,
        Registration.mk EventKind.EPOCH_STARTED 1 HandlerId.timer,
        Registration.mk EventKind.ITERATION_STARTED 1 HandlerId.timer,
        Registration.mk EventKind.ITERATION_COMPLETED 1 HandlerId.timer,
        Registration.mk EventKind.ITERATION_COMPLETED 1 HandlerId.timer,
        Registration.mk EventKind.EPOCH_COMPLETED 1 HandlerId.print_times]

/-- The externally visible effects of each registered handler, in source
order inside the handler body. -/
inductive Effect where
  | save_checkpoint (objects : List String)
  | set_epoch_and_iteration
  | actnorm_init_forward
  | save_sample_images
  | log_scalar (tag : String)
  | log_figure (tag : String)
  | run_evaluator
  | scheduler_step
  | print_log
  | timer_bookkeeping
  deriving DecidableEq, Repr

/-- Effects performed by each handler (train.py: checkpoint line 175 with
`{"model": model, "optimizer": optimizer}`; `resume_training` lines
205-207; `init` lines 211-231; `sample` lines 236-272; `evaluate` lines
277-282; `print_times` lines 289-291). -/
def handlerEffects : HandlerId → List Effect
  | HandlerId.checkpoint_handler => [Effect.save_checkpoint ["model", "optimizer"]]
  | HandlerId.resume_training => [Effect.set_epoch_and_iteration]
  | HandlerId.init => [Effect.actnorm_init_forward]
  | HandlerId.sample => [Effect.save_sample_images, Effect.log_scalar "Total_loss",
      Effect.log_figure "Sample output"]
  | HandlerId.evaluate => [Effect.run_evaluator, Effect.scheduler_step, Effect.print_log]
  | HandlerId.timer => [Effect.timer_bookkeeping]
  | HandlerId.print_times => [Effect.print_log]

/-- All effects run when an event of the given kind fires with no `every`
filtering (used for per-epoch events, whose registrations all have
`every = 1`). -/
def effectsAt (saved_model_given : Bool) (ev : EventKind) : List Effect :=
  ((registrations saved_model_given).filter (fun r => r.event == ev)).flatMap
    (fun r => handlerEffects r.handler)

/-- How many times the scheduler is stepped by the handlers of one event
occurrence. -/
def schedulerStepCount (saved_model_given : Bool) (ev : EventKind) : Nat :=
  (effectsAt saved_model_given ev).count Effect.scheduler_step

/-- Claim C3: the warmup multiplier `min(1.0, (e+1)/warmup)` is
nondecreasing in the epoch for `warmup ≥ 1`, never exceeds 1, equals 1
exactly from `e+1 ≥ warmup` on, and the scheduler is stepped exactly once
per completed epoch (only by the `evaluate` handler on EPOCH_COMPLETED)
and at no other event. -/
theorem C3_lr_warmup (w : ℚ) (hw : 1 ≤ w) :
    (∀ e e' : Nat, e ≤ e' → lr_lambda w e ≤ lr_lambda w e') ∧
    (∀ e : Nat, lr_lambda w e ≤ 1) ∧
    (∀ e : Nat, w ≤ (e : ℚ) + 1 → lr_lambda w e = 1) ∧
    (∀ s : Bool, schedulerStepCount s EventKind.EPOCH_COMPLETED = 1) ∧
    (∀ s : Bool, ∀ ev : EventKind, ev ≠ EventKind.EPOCH_COMPLETED →
      schedulerStepCount s ev = 0) := by
  have hw0 : (0 : ℚ) < w := lt_of_lt_of_le one_pos hw
  refine ⟨?_, ?_, ?_, ?_, ?_⟩
  · intro e e' h
    unfold lr_lambda
    apply min_le_min le_rfl
    apply div_le_div_of_nonneg_right _ hw0.le
    have : (e : ℚ) ≤ (e' : ℚ) := Nat.cast_le.mpr h
    linarith
  · intro e
    exact min_le_left _ _
  · intro e he
    exact min_eq_left ((one_le_div hw0).mpr he)
  · intro s
    cases s <;> decide
  · intro s ev hne
    cases s <;> cases ev <;> first
      | exact absurd rfl hne
      | decide

/-- Concrete instance of C3: monotonicity, saturation and the single
scheduler step at the default `warmup = 5`. -/
theorem C3_lr_warmup_witness :
    lr_lambda 5 2 ≤ lr_lambda 5 6 ∧ lr_lambda 5 9 = 1 ∧
    schedulerStepCount false EventKind.EPOCH_COMPLETED = 1 :=
  ⟨(C3_lr_warmup 5 (by norm_num)).1 2 6 (by norm_num),
   (C3_lr_warmup 5 (by norm_num)).2.2.1 9 (by norm_num),
   (C3_lr_warmup 5 (by norm_num)).2.2.2.1 false⟩

/-- Whether an effect is a checkpoint save. -/
def Effect.isSaveCheckpoint : Effect → Bool
  | Effect.save_checkpoint _ => true
  | _ => false

/-- The `save_interval` passed to `ModelCheckpoint` (train.py line 172). -/
def glow_save_interval : Nat := 1

/-- ignite's `ModelCheckpoint` with `save_interval=s` saves on the calls
whose running count is a multiple of `s` (internal call counter starts at
1 on the first completed epoch). -/
def modelCheckpointSaves (save_interval calls : Nat) : Bool :=
  calls % save_interval == 0

/-- Claim C5: the checkpoint handler (with `save_interval=1` and objects
`{"model", "optimizer"}`) is registered exactly once, on EPOCH_COMPLETED,
saves on every completed epoch, and no other registration writes a
checkpoint. -/
theorem C5_checkpoint_cadence :
    (∀ s : Bool, (registrations s).filter
        (fun r => r.handler == HandlerId.checkpoint_handler)
      = [Registration.mk EventKind.EPOCH_COMPLETED 1 HandlerId.checkpoint_handler]) ∧
    handlerEffects HandlerId.checkpoint_handler
      = [Effect.save_checkpoint ["model", "optimizer"]] ∧
    glow_save_interval = 1 ∧
    (∀ calls : Nat, modelCheckpointSaves glow_save_interval calls = true) ∧
    (∀ s : Bool, ∀ r ∈ registrations s,
      (handlerEffects r.handler).any Effect.isSaveCheckpoint = true →
        r.event = EventKind.EPOCH_COMPLETED) := by
  refine ⟨?_, rfl, rfl, ?_, ?_⟩
  · intro s
    cases s <;> decide
  · intro calls
    simp [modelCheckpointSaves, glow_save_interval, Nat.mod_one]
  · intro s
    cases s <;> decide

/-- Whether a string begins with a path separator. -/
def headIsSlash (s : String) : Bool :=
  match s.data with
  | [] => false
  | c :: _ => c == '/'

/-- Whether a string ends with a path separator. -/
def lastIsSlash (s : String) : Bool :=
  match s.data.getLast? with
  | Option.none => false
  | Option.some c => c == '/'

/-- Python `os.path.join(a, b)` on posix for the shapes the script uses:
an absolute second component replaces the first, otherwise the components
are joined with a separator unless one is already present. -/
def pyJoin (a b : String) : String :=
  if headIsSlash b then b
  else if a = "" || lastIsSlash a then a ++ b
  else a ++ "/" ++ b

/-- ignite's `every=n` event filter: the handler fires on the event
occurrences whose counter is a multiple of `n`. -/
def everyFilterFires (every iteration : Nat) : Bool :=
  iteration % every == 0

/-- Directory the sample images are written to (train.py lines 238-239,
260, 268): `os.path.join(args.output_dir, 'example_imgs')`. -/
def example_imgs_dir (output_dir : String) : String :=
  pyJoin output_dir "example_imgs"

/-- File names written by the `sample` handler (train.py lines 253-269):
one grid per modality named `<iteration>_<modality>.png` when the dataset
has several modalities, else a single grid named `<iteration>.png`. -/
def sampleFilenames (iteration : Nat) (modalities : List String) : List String :=
  if 1 < modalities.length then
    modalities.map (fun m => toString iteration ++ "_" ++ m ++ ".png")
  else
    [toString iteration ++ ".png"]

/-- Claim C7: `sample` is registered exactly once, on ITERATION_COMPLETED
with `every=50`, hence fires exactly at the iterations divisible by 50; a
firing writes one grid file per modality named by the current iteration
under `output_dir/example_imgs`, and logs a `Total_loss` scalar and a
figure to TensorBoard. -/
theorem C7_sampling_cadence :
    (∀ s : Bool, (registrations s).filter (fun r => r.handler == HandlerId.sample)
      = [Registration.mk EventKind.ITERATION_COMPLETED 50 HandlerId.sample]) ∧
    (∀ i : Nat, 1 ≤ i → (everyFilterFires 50 i = true ↔ 50 ∣ i)) ∧
    (∀ i : Nat, ∀ ms : List String, 1 ≤ ms.length →
      (sampleFilenames i ms).length = ms.length) ∧
    (∀ i : Nat, ∀ ms : List String, ∀ f ∈ sampleFilenames i ms,
      ∃ mid, f = toString i ++ mid ++ ".png") ∧
    example_imgs_dir "results/output/" = "results/output/example_imgs" ∧
    handlerEffects HandlerId.sample = [Effect.save_sample_images,
      Effect.log_scalar "Total_loss", Effect.log_figure "Sample output"] := by
  refine ⟨?_, ?_, ?_, ?_, by decide, rfl⟩
  · intro s
    cases s <;> decide
  · intro i _
    simp [everyFilterFires, Nat.dvd_iff_mod_eq_zero]
  · intro i ms hms
    by_cases h : 1 < ms.length
    · simp [sampleFilenames, h]
    · have h1 : ms.length = 1 := by omega
      simp [sampleFilenames, h, h1]
  · intro i ms f hf
    unfold sampleFilenames at hf
    split at hf
    · rcases List.mem_map.mp hf with ⟨m, _, rfl⟩
      exact ⟨"_" ++ m, by simp [String.append_assoc]⟩
    · rcases List.mem_singleton.mp hf with rfl
      exact ⟨"", by simp [String.append_empty]⟩

/-- Concrete instance of C7: the filter at iteration 100, the file count
for a two-modality dataset, and the name shape at iteration 100. -/
theorem C7_sampling_cadence_witness :
    (everyFilterFires 50 100 = true ↔ 50 ∣ 100) ∧
    (sampleFilenames 100 ["ct", "sem"]).length = 2 ∧
    (∃ mid, "100_ct.png" = toString 100 ++ mid ++ ".png") :=
  ⟨(C7_sampling_cadence).2.1 100 (by decide),
   (C7_sampling_cadence).2.2.1 100 ["ct", "sem"] (by decide),
   (C7_sampling_cadence).2.2.2.1 100 ["ct", "sem"] "100_ct.png" (by decide)⟩

/-- Claim C9: both `resume_training` (when a saved model is given) and
`init` are registered on STARTED, so the actnorm data-dependent
initialization forward pass runs at engine start on every run, resumed or
fresh. -/
theorem C9_init_always_runs :
    Registration.mk EventKind.STARTED 1 HandlerId.init ∈ registrations true ∧
    Registration.mk EventKind.STARTED 1 HandlerId.resume_training ∈ registrations true ∧
    Registration.mk EventKind.STARTED 1 HandlerId.init ∈ registrations false ∧
    Registration.mk EventKind.STARTED 1 HandlerId.resume_training ∉ registrations false ∧
    (∀ s : Bool, Effect.actnorm_init_forward ∈ effectsAt s EventKind.STARTED) := by
  refine ⟨by decide, by decide, by decide, by decide, ?_⟩
  intro s
  cases s <;> decide

/-- A decimal digit is none of the characters the filename parsing treats
specially. -/
theorem digit_facts (ch : Char) (h : ch.isDigit = true) :
    ch ≠ '.' ∧ ch ≠ '/' ∧ ch ≠ '_' ∧ ch ≠ '-' ∧ ch ≠ '+' := by
  refine ⟨?_, ?_, ?_, ?_, ?_⟩ <;> intro he <;> subst he <;>
    exact absurd h (by decide)

/-- `takeWhile` walks through a first block that satisfies the predicate
throughout. -/
theorem takeWhile_append_all {α : Type} (q : α → Bool) (l₁ l₂ : List α)
    (h : ∀ a ∈ l₁, q a = true) :
    (l₁ ++ l₂).takeWhile q = l₁ ++ l₂.takeWhile q := by
  induction l₁ with
  | nil => simp
  | cons a rest ih =>
    have ha : q a = true := h a (List.mem_cons_self a rest)
    simp [List.takeWhile_cons, ha,
      ih (fun b hb => h b (List.mem_cons_of_mem a hb))]

/-- Python `str.split(sep)` for a one-character separator: the maximal
runs between separator occurrences, keeping empty runs. -/
def splitOnChar (c : Char) : List Char → List (List Char)
  | [] => [[]]
  | a :: rest =>
    if a = c then [] :: splitOnChar c rest
    else (a :: (splitOnChar c rest).headD []) :: (splitOnChar c rest).tail

theorem splitOnChar_cons (c a : Char) (rest : List Char) :
    splitOnChar c (a :: rest) =
      if a = c then [] :: splitOnChar c rest
      else (a :: (splitOnChar c rest).headD []) :: (splitOnChar c rest).tail := rfl

theorem splitOnChar_ne_nil (c : Char) (l : List Char) : splitOnChar c l ≠ [] := by
  cases l with
  | nil => simp [splitOnChar]
  | cons a rest =>
    rw [splitOnChar_cons]
    split <;> simp

theorem splitOnChar_not_mem (c : Char) (l : List Char) (h : c ∉ l) :
    splitOnChar c l = [l] := by
  induction l with
  | nil => rfl
  | cons a rest ih =>
    have hac : a ≠ c := fun he => h (he ▸ List.mem_cons_self a rest)
    have hr : c ∉ rest := fun hm => h (List.mem_cons_of_mem a hm)
    rw [splitOnChar_cons, ih hr]
    simp [hac]

theorem splitOnChar_length_two (c : Char) (l : List Char) (h : c ∈ l) :
    2 ≤ (splitOnChar c l).length := by
  induction l with
  | nil => cases h
  | cons a rest ih =>
    rw [splitOnChar_cons]
    cases hs : splitOnChar c rest with
    | nil => exact absurd hs (splitOnChar_ne_nil c rest)
    | cons hd tl =>
      by_cases hac : a = c
      · simp [hac]
      · have hcr : c ∈ rest := by
          rcases List.mem_cons.mp h with h1 | h1
          · exact absurd h1.symm hac
          · exact h1
        have h2 := ih hcr
        rw [hs] at h2
        simp only [List.length_cons] at h2
        simp [hac]
        omega

/-- `getLastD` of a nonempty list does not depend on the default. -/
theorem getLastD_of_ne_nil {α : Type} (l : List α) (d d' : α) (h : l ≠ []) :
    l.getLastD d = l.getLastD d' := by
  cases l with
  | nil => exact absurd rfl h
  | cons a as => rw [List.getLastD_cons, List.getLastD_cons]

/-- Last chunk of a Python-style split: `s.split(sep)[-1]`. -/
def lastChunk (c : Char) (l : List Char) : List Char :=
  (splitOnChar c l).getLastD []

theorem splitOnChar_getLastD_append (c : Char) (l₁ l₂ : List Char) :
    (splitOnChar c (l₁ ++ (c :: l₂))).getLastD []
      = (splitOnChar c l₂).getLastD [] := by
  induction l₁ with
  | nil =>
    simp only [List.nil_append]
    rw [splitOnChar_cons, if_pos rfl, List.getLastD_cons]
  | cons a rest ih =>
    simp only [List.cons_append]
    rw [splitOnChar_cons]
    cases hs : splitOnChar c (rest ++ (c :: l₂)) with
    | nil => exact absurd hs (splitOnChar_ne_nil _ _)
    | cons hd tl =>
      have hlen : 2 ≤ (hd :: tl).length := by
        rw [← hs]
        exact splitOnChar_length_two c _ (by simp)
      have htl : tl ≠ [] := by
        intro hnil
        rw [hnil] at hlen
        simp at hlen
      rw [hs] at ih
      rw [List.getLastD_cons] at ih
      by_cases hac : a = c
      · rw [if_pos hac, List.getLastD_cons, List.getLastD_cons]
        exact ih
      · rw [if_neg hac]
        simp only [List.headD_cons, List.tail_cons]
        rw [List.getLastD_cons]
        rwa [getLastD_of_ne_nil tl (a :: hd) hd htl]

theorem lastChunk_append (c : Char) (l₁ l₂ : List Char) (h : c ∉ l₂) :
    lastChunk c (l₁ ++ (c :: l₂)) = l₂ := by
  unfold lastChunk
  rw [splitOnChar_getLastD_append, splitOnChar_not_mem c l₂ h]
  rfl

/-- The extension candidate of Python `os.path.splitext`: the trailing run
of the path that contains neither a dot nor a separator, read backwards. -/
def splitextExt (s : List Char) : List Char :=
  s.reverse.takeWhile (fun ch => ch != '.' && ch != '/')

/-- The root part of Python `os.path.splitext`: the path minus its
extension.  The extension starts at the last dot provided that dot lies
after the last separator and the basename has some non-dot character
before it (genericpath._splitext); otherwise the whole path is the root. -/
def splitextRoot (s : List Char) : List Char :=
  if (s.reverse.drop (splitextExt s).length).headD ' ' = '.' then
    if ((s.reverse.drop (splitextExt s).length).tail.takeWhile
          (fun ch => ch != '/')).any (fun ch => ch != '.') then
      (s.reverse.drop (splitextExt s).length).tail.reverse
    else s
  else s

/-- Stripping the `.pth` extension off a checkpoint path of the shape the
script's `ModelCheckpoint` produces. -/
theorem splitextRoot_pth (p ds : List Char)
    (hds : ∀ ch ∈ ds, ch.isDigit = true) :
    splitextRoot (p ++ ('_' :: (ds ++ ['.', 'p', 't', 'h'])))
      = p ++ ('_' :: ds) := by
  have hrev : (p ++ ('_' :: (ds ++ ['.', 'p', 't', 'h']))).reverse
      = 'h' :: 't' :: 'p' :: '.' :: (ds.reverse ++ ('_' :: p.reverse)) := by
    simp [List.reverse_append, List.reverse_cons, List.append_assoc]
  have hext : splitextExt (p ++ ('_' :: (ds ++ ['.', 'p', 't', 'h'])))
      = ['h', 't', 'p'] := by
    unfold splitextExt
    rw [hrev, List.takeWhile_cons_of_pos (by decide),
      List.takeWhile_cons_of_pos (by decide),
      List.takeWhile_cons_of_pos (by decide),
      List.takeWhile_cons_of_neg (by decide)]
  have hdrop : (p ++ ('_' :: (ds ++ ['.', 'p', 't', 'h']))).reverse.drop
        (splitextExt (p ++ ('_' :: (ds ++ ['.', 'p', 't', 'h'])))).length
      = '.' :: (ds.reverse ++ ('_' :: p.reverse)) := by
    rw [hext, hrev]
    rfl
  have hq : ∀ ch ∈ ds.reverse, ((fun ch => ch != '/') ch) = true := by
    intro ch hch
    have hchd := hds ch (List.mem_reverse.mp hch)
    have h2 := (digit_facts ch hchd).2.1
    simpa using h2
  unfold splitextRoot
  rw [hdrop]
  simp only [List.headD_cons, List.tail_cons]
  rw [if_pos trivial]
  have htw : ((ds.reverse ++ ('_' :: p.reverse)).takeWhile (fun ch => ch != '/'))
      = ds.reverse ++ ('_' :: (p.reverse.takeWhile (fun ch => ch != '/'))) := by
    rw [takeWhile_append_all _ _ _ hq, List.takeWhile_cons_of_pos (by decide)]
  have hany : ((ds.reverse ++ ('_' :: p.reverse)).takeWhile
      (fun ch => ch != '/')).any (fun ch => ch != '.') = true := by
    rw [htw]
    refine List.any_eq_true.mpr ⟨'_', ?_, by decide⟩
    exact List.mem_append_right _ (List.mem_cons_self _ _)
  rw [if_pos hany]
  simp [List.reverse_append, List.reverse_cons, List.reverse_reverse,
    List.append_assoc]

/-- Number denoted by a list of decimal digit characters. -/
def digitsVal (l : List Char) : Nat :=
  l.foldl (fun a ch => 10 * a + (ch.toNat - 48)) 0

/-- Python `int(s)` on a bare optionally-signed decimal literal (the only
shape the checkpoint filenames produce); any other string raises
`ValueError`, modelled as `Option.none`. -/
def parseInt? (s : String) : Option Int :=
  match s.data with
  | [] => Option.none
  | a :: rest =>
    if a = '-' then
      if rest ≠ [] ∧ rest.all Char.isDigit then
        Option.some (-(digitsVal rest : Int))
      else Option.none
    else if a = '+' then
      if rest ≠ [] ∧ rest.all Char.isDigit then
        Option.some ((digitsVal rest : Int))
      else Option.none
    else if (a :: rest).all Char.isDigit then
      Option.some ((digitsVal (a :: rest) : Int))
    else Option.none

theorem parseInt_digits (l : List Char) (hne : l ≠ [])
    (hd : l.all Char.isDigit = true) :
    parseInt? (String.mk l) = Option.some ((digitsVal l : Int)) := by
  cases l with
  | nil => exact absurd rfl hne
  | cons a rest =>
    have ha : a.isDigit = true :=
      List.all_eq_true.mp hd a (List.mem_cons_self a rest)
    have hna : a ≠ '-' := (digit_facts a ha).2.2.2.1
    have hpa : a ≠ '+' := (digit_facts a ha).2.2.2.2
    simp [parseInt?, hna, hpa, hd]

/-- `file_name, _ = os.path.splitext(args.saved_model)` followed by
`resume_iter = int(file_name.split("_")[-1])` (train.py lines 201-202). -/
def resume_iter? (saved_model : String) : Option Int :=
  parseInt? (String.mk (lastChunk '_' (splitextRoot saved_model.data)))

/-- The ignite engine-state fields the resume handler writes. -/
structure EngineState where
  epoch : Int
  iteration : Int
  deriving DecidableEq, Repr

/-- The `resume_training` STARTED handler (train.py lines 204-207):
`engine.state.epoch = int(resume_iter / len(engine.state.dataloader))`
(true division followed by `int`, i.e. truncation toward zero) and
`engine.state.iteration = resume_iter`. -/
def resume_training_state (resume_iter : Int) (num_batches : Nat)
    (st : EngineState) : EngineState :=
  { st with
    epoch := Int.tdiv resume_iter (Int.ofNat num_batches)
    iteration := resume_iter }

/-- Side effects of loading a saved model (train.py lines 194-199), in
source order. -/
inductive LoadEffect where
  | load_model_state
  | set_actnorm_init
  | load_optimizer_state
  deriving DecidableEq, Repr

/-- What `main` does when `args.saved_model` is set, before registering
`resume_training`: load the model state, mark actnorm initialized, load
the optimizer state. -/
def saved_model_load_effects : List LoadEffect :=
  [LoadEffect.load_model_state, LoadEffect.set_actnorm_init,
   LoadEffect.load_optimizer_state]

/-- Claim C6: with a saved model path of the checkpoint shape
`<anything>_<digits>.pth`, `resume_iter` parses to exactly those digits
(the integer after the last underscore, extension stripped); the loading
marks actnorm initialized after restoring the model state and before the
optimizer state; and at engine start the state is set to
`iteration = resume_iter` and `epoch = resume_iter / num_batches` rounded
down. -/
theorem C6_resume_bookkeeping (p ds : String) (hne : ds.data ≠ [])
    (hdig : ds.data.all Char.isDigit = true) (nb : Nat) (st : EngineState) :
    resume_iter? (p ++ "_" ++ ds ++ ".pth")
      = Option.some ((digitsVal ds.data : Int)) ∧
    (resume_training_state (digitsVal ds.data : Int) nb st).iteration
      = (digitsVal ds.data : Int) ∧
    (resume_training_state (digitsVal ds.data : Int) nb st).epoch
      = Int.ofNat (digitsVal ds.data / nb) ∧
    saved_model_load_effects
      = [LoadEffect.load_model_state, LoadEffect.set_actnorm_init,
         LoadEffect.load_optimizer_state] ∧
    (Registration.mk EventKind.STARTED 1 HandlerId.resume_training
      ∈ registrations true) := by
  have hds : ∀ ch ∈ ds.data, ch.isDigit = true := List.all_eq_true.mp hdig
  have hunder : '_' ∉ ds.data := by
    intro hm
    exact (digit_facts '_' (hds '_' hm)).2.2.1 rfl
  refine ⟨?_, rfl, rfl, rfl, by decide⟩
  have hdata : (p ++ "_" ++ ds ++ ".pth").data
      = p.data ++ ('_' :: (ds.data ++ ['.', 'p', 't', 'h'])) := by
    simp [String.data_append]
  unfold resume_iter?
  rw [hdata, splitextRoot_pth p.data ds.data hds,
    lastChunk_append '_' p.data ds.data hunder]
  exact parseInt_digits ds.data hne hdig

/-- Concrete instance of C6: resuming from
`results/output/checkpoints/glow_model_1200.pth` with 100 batches per
epoch yields iteration 1200 and epoch 12. -/
theorem C6_resume_bookkeeping_witness :
    resume_iter? ("results/output/checkpoints/glow_model" ++ "_" ++ "1200" ++ ".pth")
      = Option.some ((digitsVal "1200".data : Int)) ∧
    (resume_training_state (digitsVal "1200".data : Int) 100
      (EngineState.mk 0 0)).iteration = (digitsVal "1200".data : Int) ∧
    (resume_training_state (digitsVal "1200".data : Int) 100
      (EngineState.mk 0 0)).epoch = Int.ofNat (digitsVal "1200".data / 100) :=
  ⟨(C6_resume_bookkeeping "results/output/checkpoints/glow_model" "1200"
      (by decide) (by decide) 100 (EngineState.mk 0 0)).1,
   (C6_resume_bookkeeping "results/output/checkpoints/glow_model" "1200"
      (by decide) (by decide) 100 (EngineState.mk 0 0)).2.1,
   (C6_resume_bookkeeping "results/output/checkpoints/glow_model" "1200"
      (by decide) (by decide) 100 (EngineState.mk 0 0)).2.2.1⟩

/-- The destination names of every option the parser defines
(train.py lines 35-72), i.e. the keys of `vars(args)`. -/
def argKeys : List String :=
  ["dataset", "dataroot", "download", "binary_data",
   "augment", "hidden_channels", "K", "L", "actnorm_scale",
   "flow_permutation", "flow_coupling", "LU_decomposed", "patch_size",
   "learn_top", "y_condition", "y_weight", "max_grad_clip",
   "max_grad_norm", "n_workers", "batch_size", "eval_batch_size",
   "epochs", "lr", "warmup", "n_init_batches", "cuda",
   "name", "fresh", "saved_model", "saved_optimizer", "seed",
   "output_dir"]

/-- Python `del d[k]` on a dictionary modelled as an association list. -/
def pyDelKey {V : Type} (d : List (String × V)) (k : String) :
    List (String × V) :=
  d.filter (fun kv => kv.1 ≠ k)

/-- The dictionary serialized to `hparams.json` (train.py lines 320-324):
`kwargs = vars(args)` followed by `del kwargs["fresh"]`. -/
def hparams_kwargs {V : Type} (vars_args : List (String × V)) :
    List (String × V) :=
  pyDelKey vars_args "fresh"

/-- Output-directory resolution of `__main__` (train.py lines 308-309):
when `--output_dir` was not supplied it becomes
`os.path.join('results', args.name)`, otherwise it is kept. -/
def resolveOutputDir (output_dir : Option String) (name : String) : String :=
  match output_dir with
  | Option.none => pyJoin "results" name
  | Option.some d => d

/-- Claim C10: `hparams.json` holds every parsed argument except `fresh`,
which is deleted before serialization, and an unsupplied `--output_dir`
is set to `results/<name>` before the file is written. -/
theorem C10_hparams_json {V : Type} (vars_args : List (String × V)) :
    (∀ kv ∈ hparams_kwargs vars_args, kv.1 ≠ "fresh") ∧
    (∀ kv ∈ vars_args, kv.1 ≠ "fresh" → kv ∈ hparams_kwargs vars_args) ∧
    (∀ kv ∈ hparams_kwargs vars_args, kv ∈ vars_args) ∧
    "fresh" ∈ argKeys ∧
    (argKeys.filter (fun k => k ≠ "fresh")).length = argKeys.length - 1 ∧
    (∀ n : String, headIsSlash n = false →
      resolveOutputDir Option.none n = "results/" ++ n) ∧
    (∀ d n, resolveOutputDir (Option.some d) n = d) := by
  refine ⟨?_, ?_, ?_, by decide, by decide, ?_, fun d n => rfl⟩
  · intro kv hkv
    have := List.of_mem_filter hkv
    simpa using this
  · intro kv hkv hne
    refine List.mem_filter.mpr ⟨hkv, ?_⟩
    simpa using hne
  · intro kv hkv
    exact List.mem_filter.mp hkv |>.1
  · intro n hn
    unfold resolveOutputDir pyJoin
    rw [if_neg (by simp [hn]), if_neg (by decide)]
    have h1 : "results" ++ "/" = "results/" := by decide
    rw [← h1]

/-- Concrete instance of C10: a two-entry argument dictionary loses
exactly its `fresh` entry, and the default name resolves under
`results/`. -/
theorem C10_hparams_json_witness :
    (("fresh", 0) ∈ ([("fresh", 0), ("seed", 1)] : List (String × Nat)) →
      (("fresh", 0) : String × Nat)
        ∈ hparams_kwargs [("fresh", 0), ("seed", 1)] → False) ∧
    (("seed", 1) : String × Nat) ∈ hparams_kwargs [("fresh", 0), ("seed", 1)] ∧
    resolveOutputDir Option.none "output/" = "results/" ++ "output/" :=
  ⟨fun _ hmem =>
    (C10_hparams_json [("fresh", 0), ("seed", 1)]).1 ("fresh", 0) hmem rfl,
   (C10_hparams_json [("fresh", 0), ("seed", 1)]).2.1 ("seed", 1)
     (by decide) (by decide),
   (C10_hparams_json ([] : List (String × Nat))).2.2.2.2.2.1 "output/" (by decide)⟩

end RockFlow
